import Mathlib

/-!
# Verification of the crates.io secure-token module

A shallow embedding of `src/util/token.rs`: the `SecureTokenKind` registry,
`SecureToken::generate`, `SecureToken::parse`, `SecureToken::hash` (SHA-256),
the diesel `Bytea` codec and the `Debug` impl, together with theorems about
the properties the module is documented to satisfy.

Rust strings are modelled as `List Char`; byte vectors as `List Nat` with
each entry below 256.  The `OsRng` entropy source is modelled as a stream
`Nat → Nat` of indices into the sampling alphabet (the rand `Uniform`
distribution over `0..CHARS.len()` only yields in-range indices, which
appears as an explicit bound hypothesis where it matters).
-/

set_option maxRecDepth 100000

namespace CratesToken

/-! ## SHA-256 (the `sha2` crate's `Sha256::digest`), FIPS 180-4 -/

/-- 2^32, the modulus for 32-bit word arithmetic in SHA-256. -/
def M32 : Nat := 4294967296

/-- Right rotation of a 32-bit word. -/
def rotr (n x : Nat) : Nat := ((x >>> n) ||| (x <<< (32 - n))) % M32

def smallSigma0 (x : Nat) : Nat := (rotr 7 x) ^^^ (rotr 18 x) ^^^ (x >>> 3)

def smallSigma1 (x : Nat) : Nat := (rotr 17 x) ^^^ (rotr 19 x) ^^^ (x >>> 10)

def bigSigma0 (x : Nat) : Nat := (rotr 2 x) ^^^ (rotr 13 x) ^^^ (rotr 22 x)

def bigSigma1 (x : Nat) : Nat := (rotr 6 x) ^^^ (rotr 11 x) ^^^ (rotr 25 x)

/-- SHA-256 choice function; the complement is xor with `2^32 - 1`. -/
def chWord (x y z : Nat) : Nat := (x &&& y) ^^^ ((x ^^^ 4294967295) &&& z)

/-- SHA-256 majority function. -/
def majWord (x y z : Nat) : Nat := (x &&& y) ^^^ (x &&& z) ^^^ (y &&& z)

/-- The 64 SHA-256 round constants (decimal). -/
def sha256K : List Nat :=
  [1116352408, 1899447441, 3049323471, 3921009573, 961987163,
   1508970993, 2453635748, 2870763221, 3624381080, 310598401,
   607225278, 1426881987, 1925078388, 2162078206, 2614888103,
   3248222580, 3835390401, 4022224774, 264347078, 604807628,
   770255983, 1249150122, 1555081692, 1996064986, 2554220882,
   2821834349, 2952996808, 3210313671, 3336571891, 3584528711,
   113926993, 338241895, 666307205, 773529912, 1294757372,
   1396182291, 1695183700, 1986661051, 2177026350, 2456956037,
   2730485921, 2820302411, 3259730800, 3345764771, 3516065817,
   3600352804, 4094571909, 275423344, 430227734, 506948616,
   659060556, 883997877, 958139571, 1322822218, 1537002063,
   1747873779, 1955562222, 2024104815, 2227730452, 2361852424,
   2428436474, 2756734187, 3204031479, 3329325298]

/-- The initial SHA-256 hash value (decimal). -/
def sha256H0 : List Nat :=
  [1779033703, 3144134277, 1013904242, 2773480762,
   1359893119, 2600822924, 528734635, 1541459225]

/-- Big-endian interpretation of a byte list as a natural number. -/
def beWord (l : List Nat) : Nat := l.foldl (fun acc b => acc * 256 + b) 0

/-- The four big-endian bytes of a 32-bit word. -/
def word32ToBytes (w : Nat) : List Nat :=
  [(w >>> 24) % 256, (w >>> 16) % 256, (w >>> 8) % 256, w % 256]

/-- SHA-256 padding: append `0x80`, zero bytes up to 56 mod 64, then the
64-bit big-endian bit length. -/
def sha256Pad (msg : List Nat) : List Nat :=
  let l := msg.length
  let k := (120 - ((l + 1) % 64)) % 64
  let bitLen := 8 * l
  msg ++ [0x80] ++ List.replicate k 0 ++
    [(bitLen >>> 56) % 256, (bitLen >>> 48) % 256, (bitLen >>> 40) % 256, (bitLen >>> 32) % 256,
     (bitLen >>> 24) % 256, (bitLen >>> 16) % 256, (bitLen >>> 8) % 256, bitLen % 256]

/-- Split a padded message into 64-byte blocks. -/
def chunks64 (l : List Nat) : List (List Nat) :=
  (List.range ((l.length + 63) / 64)).map (fun i => ((l.drop (64 * i)).take 64))

/-- The 16 initial 32-bit words of a 64-byte block (big-endian). -/
def blockWords (block : List Nat) : List Nat :=
  (List.range 16).map (fun i => beWord ((block.drop (4 * i)).take 4))

/-- Message schedule: extend the 16 block words to 64 words. -/
def schedule (ws : List Nat) : Array Nat :=
  (List.range 48).foldl
    (fun w i =>
      w.push ((smallSigma1 (w.getD (i + 14) 0) + w.getD (i + 9) 0 +
               smallSigma0 (w.getD (i + 1) 0) + w.getD i 0) % M32))
    ws.toArray

/-- One round of the SHA-256 compression function on the 8-word state. -/
def roundStep (k wi : Nat) (s : List Nat) : List Nat :=
  let a := s.getD 0 0
  let b := s.getD 1 0
  let c := s.getD 2 0
  let d := s.getD 3 0
  let e := s.getD 4 0
  let f := s.getD 5 0
  let g := s.getD 6 0
  let h := s.getD 7 0
  let t1 := (h + bigSigma1 e + chWord e f g + k + wi) % M32
  let t2 := (bigSigma0 a + majWord a b c) % M32
  [(t1 + t2) % M32, a, b, c, (d + t1) % M32, e, f, g]

/-- Compress one 64-byte block into the running hash value. -/
def compressBlock (hv : List Nat) (block : List Nat) : List Nat :=
  let w := schedule (blockWords block)
  let s := (List.range 64).foldl (fun s i => roundStep (sha256K.getD i 0) (w.getD i 0) s) hv
  List.zipWith (fun x y => (x + y) % M32) hv s

/-- SHA-256 of a byte list, as its 32-byte digest. -/
def sha256Bytes (msg : List Nat) : List Nat :=
  (((chunks64 (sha256Pad msg)).foldl compressBlock sha256H0).map word32ToBytes).flatten

/-! ## UTF-8 (Rust `str::as_bytes` on the `List Char` model) -/

/-- Standard UTF-8 encoding of a single character. -/
def utf8EncodeChar (c : Char) : List Nat :=
  let v := c.toNat
  if v < 0x80 then [v]
  else if v < 0x800 then [0xC0 ||| (v >>> 6), 0x80 ||| (v &&& 0x3F)]
  else if v < 0x10000 then
    [0xE0 ||| (v >>> 12), 0x80 ||| ((v >>> 6) &&& 0x3F), 0x80 ||| (v &&& 0x3F)]
  else
    [0xF0 ||| (v >>> 18), 0x80 ||| ((v >>> 12) &&& 0x3F), 0x80 ||| ((v >>> 6) &&& 0x3F),
     0x80 ||| (v &&& 0x3F)]

/-- The UTF-8 bytes of a string (modelled as a list of characters). -/
def utf8Bytes (s : List Char) : List Nat := (s.map utf8EncodeChar).flatten

/-! ## The token module (`src/util/token.rs`) -/

/-- `const TOKEN_LENGTH: usize = 32` (token.rs line 5). -/
def TOKEN_LENGTH : Nat := 32

/-- `enum SecureTokenKind` — the closed registry of token kinds
(token.rs lines 116-126).  It currently has the single variant `Api`. -/
inductive SecureTokenKind where
  | Api
  deriving DecidableEq

/-- `SecureTokenKind::VARIANTS`, generated by the `secure_token_kind!` macro. -/
def SecureTokenKind.VARIANTS : List SecureTokenKind := [SecureTokenKind.Api]

/-- `SecureTokenKind::prefix()`: `Api => "cio"`.  (`prefixStr` because
the word itself is a Lean keyword.) -/
def SecureTokenKind.prefixStr : SecureTokenKind → List Char
  | SecureTokenKind.Api => "cio".toList

/-- `SecureTokenKind::from_token` (token.rs lines 128-135): find the first
variant whose prefix the token starts with. -/
def SecureTokenKind.from_token (token : List Char) : Option SecureTokenKind :=
  SecureTokenKind.VARIANTS.find? (fun v => v.prefixStr.isPrefixOf token)

/-- `struct SecureToken { sha256: Vec<u8> }` (token.rs lines 7-11). -/
structure SecureToken where
  sha256 : List Nat
  deriving DecidableEq

/-- `SecureToken::hash` (token.rs lines 38-40): SHA-256 of the plaintext's
UTF-8 bytes. -/
def SecureToken.hash (plaintext : List Char) : List Nat := sha256Bytes (utf8Bytes plaintext)

/-- `struct NewSecureToken` (token.rs lines 63-66): one-time plaintext
paired with the at-rest token. -/
structure NewSecureToken where
  plaintext : List Char
  inner : SecureToken
  deriving DecidableEq

/-- `CHARS` inside `generate_secure_alphanumeric_string`: the 62-symbol
alphanumeric alphabet. -/
def CHARS : List Char := "abcdefghijklmnopqrstuvwxyzABCDEFGHIJKLMNOPQRSTUVWXYZ0123456789".toList

/-- `generate_secure_alphanumeric_string` (token.rs lines 87-95).  `OsRng`
sampling `Uniform::from(0..CHARS.len())` is modelled by the `entropy`
index stream; the distribution only produces indices below `CHARS.length`. -/
def generate_secure_alphanumeric_string (len : Nat) (entropy : Nat → Nat) : List Char :=
  (List.range len).map (fun i => CHARS.getD (entropy i) ' ')

/-- `SecureToken::generate` (token.rs lines 14-26). -/
def SecureToken.generate (kind : SecureTokenKind) (entropy : Nat → Nat) : NewSecureToken :=
  let plaintext := kind.prefixStr ++ generate_secure_alphanumeric_string TOKEN_LENGTH entropy
  { plaintext := plaintext, inner := { sha256 := SecureToken.hash plaintext } }

/-- `SecureToken::parse` (token.rs lines 28-36): the kind looked up from the
token must equal the expected kind, otherwise `None`; this rejects both
unknown prefixes and wrong kinds. -/
def SecureToken.parse (kind : SecureTokenKind) (plaintext : List Char) : Option SecureToken :=
  if SecureTokenKind.from_token plaintext = some kind then
    some { sha256 := SecureToken.hash plaintext }
  else none

/-- The `Debug` impl for `SecureToken` (token.rs lines 43-47): writes the
fixed string and nothing else. -/
def SecureToken.debugFmt (_t : SecureToken) : String := "SecureToken"

/-- `ToSql<Bytea, Pg>` (token.rs lines 49-53): the column value is the raw
`sha256` byte vector. -/
def SecureToken.to_sql (t : SecureToken) : List Nat := t.sha256

/-- `FromSql<Bytea, Pg>` (token.rs lines 55-61): rebuild the token from the
raw column bytes; the inner `Vec<u8>` conversion always succeeds, and any
upstream failure would be propagated by `?`. -/
def SecureToken.from_sql (bytes : List Nat) : Except String SecureToken :=
  Except.ok { sha256 := bytes }

/-- Modelled from the spec: the failure mode of the secure random source.
The repository sources call `OsRng` (the rand crate), whose failure
behaviour is outside `src/`; the spec names it EntropyUnavailable. -/
inductive EntropyError where
  | unavailable
  deriving DecidableEq

/-- Modelled from the spec: generation against a fallible secure random
source.  Reading the source either fails (EntropyUnavailable, which aborts
issuance) or yields the entropy stream used by `SecureToken::generate`;
there is no other source of randomness to fall back to. -/
def SecureToken.generateWithEntropySource (kind : SecureTokenKind)
    (src : Except EntropyError (Nat → Nat)) : Except EntropyError NewSecureToken :=
  match src with
  | Except.error e => Except.error e
  | Except.ok entropy => Except.ok (SecureToken.generate kind entropy)

/-! ## Helper lemmas -/

theorem isPrefixOf_append_self (l t : List Char) : l.isPrefixOf (l ++ t) = true := by
  simp

theorem from_token_generate (kind : SecureTokenKind) (entropy : Nat → Nat) :
    SecureTokenKind.from_token (SecureToken.generate kind entropy).plaintext = some kind := by
  cases kind
  simp [SecureTokenKind.from_token, SecureTokenKind.VARIANTS, SecureToken.generate,
        List.find?, isPrefixOf_append_self]

theorem roundStep_length (k wi : Nat) (s : List Nat) : (roundStep k wi s).length = 8 := rfl

theorem foldl_roundStep_length (l : List Nat) (w : Array Nat) (s : List Nat) (hs : s.length = 8) :
    (l.foldl (fun s i => roundStep (sha256K.getD i 0) (w.getD i 0) s) s).length = 8 := by
  induction l generalizing s with
  | nil => simpa using hs
  | cons a l ih => simpa using ih _ (roundStep_length _ _ _)

theorem compressBlock_length (hv block : List Nat) (h : hv.length = 8) :
    (compressBlock hv block).length = 8 := by
  unfold compressBlock
  rw [List.length_zipWith, foldl_roundStep_length _ _ _ h, h]
  simp

theorem foldl_compressBlock_length (blocks : List (List Nat)) (hv : List Nat)
    (h : hv.length = 8) : (blocks.foldl compressBlock hv).length = 8 := by
  induction blocks generalizing hv with
  | nil => simpa using h
  | cons b bs ih => exact ih _ (compressBlock_length _ _ h)

theorem flatten_map_word32_length (l : List Nat) :
    ((l.map word32ToBytes).flatten).length = 4 * l.length := by
  induction l with
  | nil => rfl
  | cons a l ih =>
    simp only [List.map_cons, List.flatten_cons, List.length_append, ih, List.length_cons]
    simp [word32ToBytes]
    omega

theorem sha256Bytes_length (msg : List Nat) : (sha256Bytes msg).length = 32 := by
  unfold sha256Bytes
  rw [flatten_map_word32_length,
      foldl_compressBlock_length (chunks64 (sha256Pad msg)) sha256H0 rfl]

theorem getD_mem_of_lt (l : List Char) (n : Nat) (d : Char) (h : n < l.length) :
    l.getD n d ∈ l := by
  rw [List.getD_eq_getElem l d h]
  exact List.getElem_mem h

/-! ## Claim theorems -/

/-- C1: for every token kind and every entropy stream, parsing the generated
plaintext back with the same kind succeeds and yields a token whose digest
equals the generated token's digest (generate/parse round-trip). -/
theorem generate_parse_round_trip (kind : SecureTokenKind) (entropy : Nat → Nat) :
    ∃ S : SecureToken,
      SecureToken.parse kind (SecureToken.generate kind entropy).plaintext = some S ∧
      S.sha256 = (SecureToken.generate kind entropy).inner.sha256 := by
  refine ⟨{ sha256 := SecureToken.hash (SecureToken.generate kind entropy).plaintext }, ?_, rfl⟩
  simp [SecureToken.parse, from_token_generate]

/-- C2: `parse(K, t)` returns `some` exactly when the registry lookup
`from_token` identifies the plaintext's kind as `K`; in every other case
(no known prefix, or a different kind's prefix) it returns `none`, so both
failure causes collapse into the single outcome `none`. -/
theorem parse_some_iff_kind_lookup (kind : SecureTokenKind) (t : List Char) :
    (∃ S, SecureToken.parse kind t = some S) ↔
      SecureTokenKind.from_token t = some kind := by
  by_cases h : SecureTokenKind.from_token t = some kind <;> simp [SecureToken.parse, h]

/-- C3: prefix-collision freedom over the whole registry.  Stated
contrapositively for the universal part (whenever one kind's prefix leads
another kind's prefix the kinds are equal), and as the exhaustive all-pairs
scan of `VARIANTS` that mirrors the `test_conflicting_prefixes` test. -/
theorem prefixes_collision_free :
    (∀ A B : SecureTokenKind, A.prefixStr.isPrefixOf B.prefixStr = true → A = B) ∧
    SecureTokenKind.VARIANTS.all
      (fun v => SecureTokenKind.VARIANTS.all
        (fun o => v == o || !(o.prefixStr.isPrefixOf v.prefixStr))) = true := by
  constructor
  · intro A B _h
    cases A; cases B; rfl
  · decide

/-- Witness for C3 at the concrete pair Api/Api. -/
theorem prefixes_collision_free_witness :
    SecureTokenKind.Api.prefixStr.isPrefixOf SecureTokenKind.Api.prefixStr = true ∧
    SecureTokenKind.Api = SecureTokenKind.Api :=
  ⟨by decide, prefixes_collision_free.1 SecureTokenKind.Api SecureTokenKind.Api (by decide)⟩

/-- C4: cross-kind rejection, stated contrapositively: if parsing a token
generated for kind `Kp` with expected kind `K` succeeds at all, then
`K = Kp`; equivalently, for distinct kinds the parse returns `none`. -/
theorem parse_generated_kind_agrees (K Kp : SecureTokenKind) (entropy : Nat → Nat)
    (S : SecureToken)
    (_h : SecureToken.parse K (SecureToken.generate Kp entropy).plaintext = some S) :
    K = Kp := by
  cases K; cases Kp; rfl

/-- Witness for C4 at kind Api and the all-zeros entropy stream. -/
theorem parse_generated_kind_agrees_witness :
    SecureToken.parse SecureTokenKind.Api
        (SecureToken.generate SecureTokenKind.Api (fun _ => 0)).plaintext
      = some (SecureToken.mk (SecureToken.hash
          (SecureToken.generate SecureTokenKind.Api (fun _ => 0)).plaintext)) ∧
    SecureTokenKind.Api = SecureTokenKind.Api :=
  ⟨by simp [SecureToken.parse, from_token_generate],
   parse_generated_kind_agrees SecureTokenKind.Api SecureTokenKind.Api (fun _ => 0)
     (SecureToken.mk (SecureToken.hash
         (SecureToken.generate SecureTokenKind.Api (fun _ => 0)).plaintext))
     (by simp [SecureToken.parse, from_token_generate])⟩

/-- C5: for in-range entropy, the generated plaintext has length
`prefix length + 32`, begins with the kind's prefix, and its suffix past
the prefix consists only of characters of the 62-symbol alphanumeric
alphabet `CHARS`. -/
theorem generate_plaintext_shape (kind : SecureTokenKind) (entropy : Nat → Nat)
    (hent : ∀ i, entropy i < CHARS.length) :
    (SecureToken.generate kind entropy).plaintext.length = kind.prefixStr.length + 32 ∧
    kind.prefixStr.isPrefixOf (SecureToken.generate kind entropy).plaintext = true ∧
    ((SecureToken.generate kind entropy).plaintext.drop kind.prefixStr.length).all
      (fun c => CHARS.contains c) = true ∧
    CHARS.length = 62 := by
  refine ⟨?_, ?_, ?_, by decide⟩
  · simp [SecureToken.generate, generate_secure_alphanumeric_string, TOKEN_LENGTH]
  · simp [SecureToken.generate]
  · simp only [SecureToken.generate]
    rw [List.drop_left]
    simp only [generate_secure_alphanumeric_string, List.all_eq_true]
    intro c hc
    rw [List.mem_map] at hc
    obtain ⟨i, _hi, rfl⟩ := hc
    simpa using getD_mem_of_lt CHARS (entropy i) ' ' (hent i)

/-- Witness for C5 at kind Api and the all-zeros entropy stream. -/
theorem generate_plaintext_shape_witness :
    (SecureToken.generate SecureTokenKind.Api (fun _ => 0)).plaintext.length
        = SecureTokenKind.Api.prefixStr.length + 32 ∧
    SecureTokenKind.Api.prefixStr.isPrefixOf
        (SecureToken.generate SecureTokenKind.Api (fun _ => 0)).plaintext = true ∧
    ((SecureToken.generate SecureTokenKind.Api (fun _ => 0)).plaintext.drop
        SecureTokenKind.Api.prefixStr.length).all (fun c => CHARS.contains c) = true ∧
    CHARS.length = 62 :=
  generate_plaintext_shape SecureTokenKind.Api (fun _ => 0)
    (fun _ => (by decide : (0 : Nat) < CHARS.length))

/-- C6: the digest computed by both generate and parse is SHA-256 of the
UTF-8 bytes of the full plaintext (prefix included); every digest is 32
bytes; hashing is deterministic; and `sha256Bytes` agrees with the FIPS
180-4 test vector for "abc", pinning it to SHA-256. -/
theorem digest_is_sha256_deterministic :
    (∀ (kind : SecureTokenKind) (entropy : Nat → Nat),
        (SecureToken.generate kind entropy).inner.sha256
          = sha256Bytes (utf8Bytes (SecureToken.generate kind entropy).plaintext)) ∧
    (∀ (kind : SecureTokenKind) (t : List Char),
        SecureToken.parse kind t = none ∨
        SecureToken.parse kind t = some { sha256 := sha256Bytes (utf8Bytes t) }) ∧
    (∀ msg : List Nat, (sha256Bytes msg).length = 32) ∧
    (∀ t : List Char, SecureToken.hash t = SecureToken.hash t) ∧
    sha256Bytes (utf8Bytes "abc".toList) =
      [0xba, 0x78, 0x16, 0xbf, 0x8f, 0x01, 0xcf, 0xea, 0x41, 0x41, 0x40, 0xde,
       0x5d, 0xae, 0x22, 0x23, 0xb0, 0x03, 0x61, 0xa3, 0x96, 0x17, 0x7a, 0x9c,
       0xb4, 0x10, 0xff, 0x61, 0xf2, 0x00, 0x15, 0xad] := by
  refine ⟨fun kind entropy => rfl, fun kind t => ?_, sha256Bytes_length,
          fun t => rfl, by decide⟩
  by_cases h : SecureTokenKind.from_token t = some kind
  · right
    simp [SecureToken.parse, h, SecureToken.hash]
  · left
    simp [SecureToken.parse, h]

/-- C7: any plaintext that no registered kind's prefix leads is rejected:
`parse` returns `none` for every expected kind. -/
theorem parse_no_known_kind_none (kind : SecureTokenKind) (t : List Char)
    (h : ∀ v ∈ SecureTokenKind.VARIANTS, v.prefixStr.isPrefixOf t = false) :
    SecureToken.parse kind t = none := by
  have hft : SecureTokenKind.from_token t = none := by
    apply List.find?_eq_none.mpr
    intro v hv
    simp [h v hv]
  simp [SecureToken.parse, hft]

/-- Witness for C7: the spec's concrete scenario `parse(Api, "nokind")`. -/
theorem parse_no_known_kind_none_witness :
    SecureToken.parse SecureTokenKind.Api "nokind".toList = none :=
  parse_no_known_kind_none SecureTokenKind.Api "nokind".toList (by decide)

/-- C8: generation against a fallible secure random source: when the source
cannot be read the error is propagated and issuance aborts with no token;
when it can be read, the token is produced from that source's entropy and
nothing else (no fallback randomness exists in the model). -/
theorem generate_entropy_failure_fatal :
    (∀ (kind : SecureTokenKind) (e : EntropyError),
        SecureToken.generateWithEntropySource kind (Except.error e) = Except.error e) ∧
    (∀ (kind : SecureTokenKind) (entropy : Nat → Nat),
        SecureToken.generateWithEntropySource kind (Except.ok entropy)
          = Except.ok (SecureToken.generate kind entropy)) :=
  ⟨fun _ _ => rfl, fun _ _ => rfl⟩

/-- C9: the Bytea codec round-trips every digest produced by the generator
or the parser: decoding the encoded column bytes restores the token. -/
theorem sql_codec_round_trip (t : SecureToken)
    (_h : (∃ kind entropy, t = (SecureToken.generate kind entropy).inner) ∨
          (∃ kind pt, SecureToken.parse kind pt = some t)) :
    SecureToken.from_sql (SecureToken.to_sql t) = Except.ok t := rfl

/-- Witness for C9 at a token produced by the generator. -/
theorem sql_codec_round_trip_witness :
    SecureToken.from_sql (SecureToken.to_sql
        (SecureToken.generate SecureTokenKind.Api (fun _ => 0)).inner)
      = Except.ok (SecureToken.generate SecureTokenKind.Api (fun _ => 0)).inner :=
  sql_codec_round_trip _ (Or.inl ⟨SecureTokenKind.Api, fun _ => 0, rfl⟩)

/-- C10: the Debug formatting of a SecureToken is the constant string
"SecureToken", so any two tokens (whatever their digests) format
identically and no digest bytes can leak through formatting. -/
theorem debug_fmt_reveals_nothing :
    (∀ t : SecureToken, SecureToken.debugFmt t = "SecureToken") ∧
    (∀ t1 t2 : SecureToken, SecureToken.debugFmt t1 = SecureToken.debugFmt t2) :=
  ⟨fun _ => rfl, fun _ _ => rfl⟩

end CratesToken
